import Mathlib

/-!
Verification of the tenant schema-switching mechanism of the
beezy-commerce-v2 backend.

The embedding models the `public.tenants` table as a list of rows in
insertion order, the set of provisioned PostgreSQL schemas as a list of
schema names, `NOW()` as a logical clock, and every mutating SQL
statement issued through `db.raw` as an event appended to a trace (so
that ordering properties of the issued statements are expressible).

Embedded source:
  - apps/backend/src/modules/tenant/service.ts   (TenantModuleService)
  - apps/backend/src/api/middlewares/tenant.ts   (tenantMiddleware)
  - apps/backend/src/api/admin/tenants/init/route.ts (PATCH handler)
-/

namespace Beezy

/-- Row of the `public.tenants` table, as surfaced by the service layer
(`TenantData` in service.ts). `status` is the raw stored string
(`VARCHAR(50)`, values "active" / "inactive" / "pending"); timestamps
are a logical clock. -/
structure Tenant where
  id : String
  entityId : String
  entityName : String
  schemaName : String
  status : String
  createdAt : Nat
  updatedAt : Nat
deriving DecidableEq, Repr

/-- Mutating SQL statement issued through `db.raw`, recorded so that
statement ordering is observable. -/
inductive Event where
  | createSchema (schemaName : String)
  | insertTenant (id entityId entityName schemaName : String)
  | updateStatusRow (entityId status : String)
  | updateRow (entityId : String)
  | dropSchema (schemaName : String)
  | deleteRow (entityId : String)
deriving DecidableEq, Repr

/-- Storage state: tenant rows in insertion order, the provisioned
schema namespaces, the logical clock behind `NOW()`, and the trace of
mutating statements issued so far. -/
structure DB where
  tenants : List Tenant
  schemas : List String
  now : Nat
  trace : List Event
deriving DecidableEq, Repr

/-- Schema name derivation (service.ts line 46): the prefix
`tenant_entity_` followed by `entityId` with every hyphen replaced by
an underscore (the global-regex replace of service.ts). -/
def sanitizeSchemaName (entityId : String) : String :=
  "tenant_entity_" ++ String.mk (entityId.data.map fun c => if c = '-' then '_' else c)

/-- Row id derivation (service.ts line 45): `tenant_${entityId}`. -/
def tenantRecordId (entityId : String) : String :=
  "tenant_" ++ entityId

/-- Lookup `SELECT * FROM public.tenants WHERE entity_id = ?`, taking
`rows[0]` (service.ts `getTenantByEntityId`). -/
def getTenantByEntityId (db : DB) (entityId : String) : Option Tenant :=
  db.tenants.find? fun t => t.entityId == entityId

/-- Lookup `SELECT * FROM public.tenants WHERE schema_name = ?`, taking
`rows[0]` (service.ts `getTenantBySchemaName`). -/
def getTenantBySchemaName (db : DB) (schemaName : String) : Option Tenant :=
  db.tenants.find? fun t => t.schemaName == schemaName

/-- Listing `SELECT * FROM public.tenants ORDER BY created_at DESC`
(service.ts `listTenants`): all rows, most recently created first. -/
def listTenants (db : DB) : List Tenant :=
  db.tenants.mergeSort fun a b => decide (b.createdAt ≤ a.createdAt)

/-- Creation (service.ts `createTenant`): derive `id` and `schemaName`,
return the existing row unchanged when one matches `entityId`;
otherwise issue `CREATE SCHEMA IF NOT EXISTS`, insert the row with
status 'active', and re-fetch it. The SQL `ON CONFLICT (entity_id)`
clause is unreachable here because the row was just checked absent; a
violation of the `id` primary key or the `schema_name` UNIQUE
constraint makes the INSERT raise, modelled as `Except.error`. -/
def createTenant (db : DB) (entityId entityName : String) :
    Except String (Tenant × DB) :=
  let id := tenantRecordId entityId
  let schemaName := sanitizeSchemaName entityId
  match getTenantByEntityId db entityId with
  | some existing => Except.ok (existing, db)
  | none =>
    let db1 : DB :=
      { db with
        schemas := if schemaName ∈ db.schemas then db.schemas else db.schemas ++ [schemaName],
        trace := db.trace ++ [Event.createSchema schemaName] }
    if db1.tenants.any (fun t => t.id == id || t.schemaName == schemaName) then
      Except.error "unique constraint violation"
    else
      let row : Tenant :=
        { id := id, entityId := entityId, entityName := entityName,
          schemaName := schemaName, status := "active",
          createdAt := db1.now, updatedAt := db1.now }
      let db2 : DB :=
        { db1 with
          tenants := db1.tenants ++ [row],
          now := db1.now + 1,
          trace := db1.trace ++ [Event.insertTenant id entityId entityName schemaName] }
      match getTenantByEntityId db2 entityId with
      | some t => Except.ok (t, db2)
      | none => Except.error "tenant not found after insert"

/-- Tenant returned by a successful `createTenant`. -/
def createTenantResult (db : DB) (entityId entityName : String) : Option Tenant :=
  match createTenant db entityId entityName with
  | Except.ok (t, _) => some t
  | Except.error _ => none

/-- Storage state after `createTenant` (unchanged when the call raised). -/
def createTenantState (db : DB) (entityId entityName : String) : DB :=
  match createTenant db entityId entityName with
  | Except.ok (_, db1) => db1
  | Except.error _ => db

/-- Status update (service.ts `updateTenantStatus`): issue
`UPDATE public.tenants SET status = ?, updated_at = NOW() WHERE entity_id = ?`
unconditionally, then re-fetch the row by `entityId`. -/
def updateTenantStatus (db : DB) (entityId status : String) :
    Option Tenant × DB :=
  let db1 : DB :=
    { db with
      tenants := db.tenants.map fun t =>
        if t.entityId == entityId then
          { t with status := status, updatedAt := db.now }
        else t,
      now := db.now + 1,
      trace := db.trace ++ [Event.updateStatusRow entityId status] }
  (getTenantByEntityId db1 entityId, db1)

/-- Deletion (service.ts `deleteTenant`): return false when the row is
absent; otherwise issue `DROP SCHEMA IF EXISTS "<schemaName>" CASCADE`
and then `DELETE FROM public.tenants WHERE entity_id = ?`, returning
true. -/
def deleteTenant (db : DB) (entityId : String) : Bool × DB :=
  match getTenantByEntityId db entityId with
  | none => (false, db)
  | some tenant =>
    let db1 : DB :=
      { db with
        schemas := db.schemas.filter fun s => !(s == tenant.schemaName),
        trace := db.trace ++ [Event.dropSchema tenant.schemaName] }
    let db2 : DB :=
      { db1 with
        tenants := db1.tenants.filter fun t => !(t.entityId == entityId),
        trace := db1.trace ++ [Event.deleteRow entityId] }
    (true, db2)

/-- JavaScript truthiness of an optional string: `undefined` and the
empty string are falsy. -/
def truthy (v : Option String) : Option String :=
  match v with
  | some s => if s == "" then none else some s
  | none => none

/-- Inbound request, carrying the optional `x-tenant-id` header and the
optional `tenant_id` cookie. -/
structure Request where
  headerTenantId : Option String
  cookieTenantId : Option String
deriving DecidableEq, Repr

/-- Tenant identifier used by the middleware:
`req.headers['x-tenant-id'] || req.cookies?.tenant_id`, with the
subsequent `if (!tenantId)` guard — `none` means the request proceeds
with no tenant context. -/
def effectiveTenantId (r : Request) : Option String :=
  match truthy r.headerTenantId with
  | some h => some h
  | none => truthy r.cookieTenantId

/-- The `req.tenant` object set by the middleware. -/
structure ReqTenant where
  id : String
  entityId : String
  entityName : String
  schemaName : String
deriving DecidableEq, Repr

/-- Outcome of the per-request binding: the `req.tenant` object (if
any) and the schema placed first on `search_path` (`none` means the
connection stays on the shared `public` namespace). -/
structure BindResult where
  tenant : Option ReqTenant
  searchPath : Option String
deriving DecidableEq, Repr

/-- Middleware lookup
`SELECT * FROM public.tenants WHERE entity_id = ? AND status = 'active'`. -/
def resolveActiveTenant (db : DB) (tenantId : String) : Option Tenant :=
  db.tenants.find? fun t => t.entityId == tenantId && t.status == "active"

/-- Per-request binding (middlewares/tenant.ts `tenantMiddleware`): when
the request carries a truthy tenant identifier that resolves to an
active tenant, set `req.tenant` and
`SET search_path TO "<schemaName>", public`; otherwise proceed with no
tenant context on the shared namespace. -/
def tenantMiddleware (db : DB) (r : Request) : BindResult :=
  match effectiveTenantId r with
  | none => { tenant := none, searchPath := none }
  | some tid =>
    match resolveActiveTenant db tid with
    | none => { tenant := none, searchPath := none }
    | some t =>
      { tenant := some
          { id := t.id, entityId := t.entityId,
            entityName := t.entityName, schemaName := t.schemaName },
        searchPath := some t.schemaName }

/-- PATCH /admin/tenants/:entityId (admin/tenants/init/route.ts): 404
when the row is absent; otherwise build the SET list from the truthy
body fields (`if (entityName)`, `if (status)` — empty strings are
falsy, hence treated as absent), issue the UPDATE only when the SET
list is non-empty, and re-fetch the row. -/
def patchTenant (db : DB) (entityId : String) (bodyEntityName bodyStatus : Option String) :
    Option Tenant × DB :=
  match getTenantByEntityId db entityId with
  | none => (none, db)
  | some _ =>
    let nameUpd := truthy bodyEntityName
    let statusUpd := truthy bodyStatus
    if nameUpd.isNone && statusUpd.isNone then
      (getTenantByEntityId db entityId, db)
    else
      let db1 : DB :=
        { db with
          tenants := db.tenants.map fun t =>
            if t.entityId == entityId then
              { t with
                entityName := nameUpd.getD t.entityName,
                status := statusUpd.getD t.status,
                updatedAt := db.now }
            else t,
          now := db.now + 1,
          trace := db.trace ++ [Event.updateRow entityId] }
      (getTenantByEntityId db1 entityId, db1)

/-- Character allowed in a valid `entityId`: alphanumeric or hyphen. -/
def validChar (c : Char) : Bool :=
  c.isAlphanum || c == '-'

/-- Valid `entityId`: non-empty, only alphanumerics and hyphens. -/
def validEntityId (s : String) : Bool :=
  !s.data.isEmpty && s.data.all validChar

/-- Well-formed storage state: every stored row carries the `id` and
`schemaName` derived from its `entityId` (the spec's no-drift
invariant) and a valid `entityId`. -/
def WF (db : DB) : Bool :=
  db.tenants.all fun t =>
    t.id == tenantRecordId t.entityId &&
    t.schemaName == sanitizeSchemaName t.entityId &&
    validEntityId t.entityId

/-- Empty storage state. -/
def dbEmpty : DB :=
  { tenants := [], schemas := [], now := 0, trace := [] }

/-- Row produced by a fresh (non-idempotent-path) `createTenant`. -/
def freshRow (db : DB) (entityId entityName : String) : Tenant :=
  { id := tenantRecordId entityId, entityId := entityId, entityName := entityName,
    schemaName := sanitizeSchemaName entityId, status := "active",
    createdAt := db.now, updatedAt := db.now }

/-- Storage state after a fresh (non-idempotent-path) `createTenant`. -/
def freshState (db : DB) (entityId entityName : String) : DB :=
  { tenants := db.tenants ++ [freshRow db entityId entityName],
    schemas :=
      if sanitizeSchemaName entityId ∈ db.schemas then db.schemas
      else db.schemas ++ [sanitizeSchemaName entityId],
    now := db.now + 1,
    trace := (db.trace ++ [Event.createSchema (sanitizeSchemaName entityId)]) ++
      [Event.insertTenant (tenantRecordId entityId) entityId entityName
        (sanitizeSchemaName entityId)] }

/-- The tenant row produced by `createTenant` on the empty state for
entityId "acme-1" (the end-to-end scenario of the spec). -/
def tEx : Tenant :=
  { id := "tenant_acme-1", entityId := "acme-1", entityName := "Acme Co",
    schemaName := "tenant_entity_acme_1", status := "active",
    createdAt := 0, updatedAt := 0 }

/-- Storage state holding exactly the tenant `tEx`, as left behind by
`createTenant dbEmpty "acme-1" "Acme Co"`. -/
def dbEx : DB :=
  { tenants := [tEx], schemas := ["tenant_entity_acme_1"], now := 1,
    trace := [Event.createSchema "tenant_entity_acme_1",
      Event.insertTenant "tenant_acme-1" "acme-1" "Acme Co" "tenant_entity_acme_1"] }

theorem find_congr {α : Type} {p q : α → Bool} :
    ∀ l : List α, (∀ x ∈ l, p x = q x) → l.find? p = l.find? q := by
  intro l
  induction l with
  | nil => intro _; rfl
  | cons a as ih =>
    intro h
    have ha := h a (List.mem_cons_self a as)
    rw [List.find?_cons, List.find?_cons, ha, ih fun x hx => h x (List.mem_cons_of_mem a hx)]

theorem replChar_inj {c1 c2 : Char} (h1 : validChar c1 = true) (h2 : validChar c2 = true)
    (h : (if c1 = '-' then '_' else c1) = (if c2 = '-' then '_' else c2)) : c1 = c2 := by
  by_cases e1 : c1 = '-' <;> by_cases e2 : c2 = '-' <;>
    simp only [e1, e2, if_pos, if_neg, if_true, if_false] at h
  · rw [e1, e2]
  · exfalso
    have : c2.isAlphanum = true := by
      simp only [validChar, Bool.or_eq_true, beq_iff_eq] at h2
      exact h2.resolve_right e2
    rw [← h] at this
    exact absurd this (by decide)
  · exfalso
    have : c1.isAlphanum = true := by
      simp only [validChar, Bool.or_eq_true, beq_iff_eq] at h1
      exact h1.resolve_right e1
    rw [h] at this
    exact absurd this (by decide)
  · exact h

theorem replMap_inj : ∀ {l1 l2 : List Char}, l1.all validChar = true → l2.all validChar = true →
    l1.map (fun c => if c = '-' then '_' else c) = l2.map (fun c => if c = '-' then '_' else c) →
    l1 = l2
  | [], [], _, _, _ => rfl
  | [], _ :: _, _, _, h => by simp at h
  | _ :: _, [], _, _, h => by simp at h
  | a :: as, b :: bs, h1, h2, h => by
    simp only [List.map_cons, List.cons.injEq] at h
    simp only [List.all_cons, Bool.and_eq_true] at h1 h2
    rw [replChar_inj h1.1 h2.1 h.1, replMap_inj h1.2 h2.2 h.2]

theorem sanitizeSchemaName_inj {e1 e2 : String} (h1 : validEntityId e1 = true)
    (h2 : validEntityId e2 = true) (h : sanitizeSchemaName e1 = sanitizeSchemaName e2) :
    e1 = e2 := by
  have hd := congrArg String.data h
  rw [sanitizeSchemaName, sanitizeSchemaName, String.data_append, String.data_append] at hd
  have hmaps := List.append_cancel_left hd
  simp only [validEntityId, Bool.and_eq_true] at h1 h2
  have := replMap_inj h1.2 h2.2 hmaps
  cases e1 with
  | mk d1 =>
    cases e2 with
    | mk d2 => exact congrArg String.mk this

theorem tenantRecordId_inj {e1 e2 : String} (h : tenantRecordId e1 = tenantRecordId e2) :
    e1 = e2 := by
  have hd := congrArg String.data h
  rw [tenantRecordId, tenantRecordId, String.data_append, String.data_append] at hd
  have := List.append_cancel_left hd
  cases e1 with
  | mk d1 =>
    cases e2 with
    | mk d2 => exact congrArg String.mk this

theorem WF_spec {db : DB} (h : WF db = true) {t : Tenant} (ht : t ∈ db.tenants) :
    t.id = tenantRecordId t.entityId ∧ t.schemaName = sanitizeSchemaName t.entityId ∧
      validEntityId t.entityId = true := by
  have := List.all_eq_true.mp h t ht
  simpa only [Bool.and_eq_true, beq_iff_eq, and_assoc] using this

theorem map_update_id {e : String} {f : Tenant → Tenant} :
    ∀ l : List Tenant, (∀ x ∈ l, (x.entityId == e) = false) →
      (l.map fun t => if t.entityId == e then f t else t) = l
  | [], _ => rfl
  | a :: as, h => by
    have ha := h a (List.mem_cons_self a as)
    simp only [List.map_cons, ha, if_false, Bool.false_eq_true, List.cons.injEq]
    exact ⟨trivial, map_update_id as fun x hx => h x (List.mem_cons_of_mem a hx)⟩

theorem find?_map_update (l : List Tenant) (e : String) (f : Tenant → Tenant)
    (hf : ∀ t, (f t).entityId = t.entityId) :
    (l.map fun t => if t.entityId == e then f t else t).find? (fun t => t.entityId == e)
      = (l.find? fun t => t.entityId == e).map fun t => if t.entityId == e then f t else t := by
  rw [List.find?_map]
  refine congrArg (Option.map _) (find_congr l fun x _ => ?_)
  show ((if x.entityId == e then f x else x).entityId == e) = (x.entityId == e)
  by_cases hx : (x.entityId == e) = true
  · rw [if_pos hx, hf, hx]
  · rw [if_neg hx]

theorem create_existing_eval {db : DB} {e : String} {t : Tenant} (n : String)
    (h0 : getTenantByEntityId db e = some t) :
    createTenant db e n = Except.ok (t, db) := by
  unfold createTenant
  rw [h0]

theorem get_freshState {db : DB} {e : String} (n : String)
    (h0 : getTenantByEntityId db e = none) :
    getTenantByEntityId (freshState db e n) e = some (freshRow db e n) := by
  unfold getTenantByEntityId at h0 ⊢
  unfold freshState
  simp only
  rw [List.find?_append, h0]
  simp [freshRow]

theorem create_fresh_eval {db : DB} {e : String} (n : String)
    (h0 : getTenantByEntityId db e = none)
    (hany : (db.tenants.any fun t =>
      t.id == tenantRecordId e || t.schemaName == sanitizeSchemaName e) = false) :
    createTenant db e n = Except.ok (freshRow db e n, freshState db e n) := by
  have hfind : getTenantByEntityId (freshState db e n) e = some (freshRow db e n) :=
    get_freshState n h0
  unfold createTenant
  rw [h0]
  simp only [hany, Bool.false_eq_true, if_false]
  show (match getTenantByEntityId (freshState db e n) e with
    | some t => Except.ok (t, freshState db e n)
    | none => Except.error "tenant not found after insert") =
      Except.ok (freshRow db e n, freshState db e n)
  rw [hfind]

theorem create_blocked_eval {db : DB} {e : String} (n : String)
    (h0 : getTenantByEntityId db e = none)
    (hany : (db.tenants.any fun t =>
      t.id == tenantRecordId e || t.schemaName == sanitizeSchemaName e) = true) :
    createTenant db e n = Except.error "unique constraint violation" := by
  unfold createTenant
  rw [h0]
  simp only [hany, if_true]

theorem create_ok_get {db : DB} {e n : String} {t : Tenant}
    (h : createTenantResult db e n = some t) :
    getTenantByEntityId (createTenantState db e n) e = some t := by
  cases h0 : getTenantByEntityId db e with
  | some u =>
    have hc := create_existing_eval n h0
    have hu : u = t := by simpa [createTenantResult, hc] using h
    have hst : createTenantState db e n = db := by simp [createTenantState, hc]
    rw [hst, h0, hu]
  | none =>
    cases hany : db.tenants.any fun x =>
        x.id == tenantRecordId e || x.schemaName == sanitizeSchemaName e with
    | true =>
      have hc := create_blocked_eval n h0 hany
      simp [createTenantResult, hc] at h
    | false =>
      have hc := create_fresh_eval n h0 hany
      have hrow : freshRow db e n = t := by simpa [createTenantResult, hc] using h
      have hst : createTenantState db e n = freshState db e n := by
        simp [createTenantState, hc]
      rw [hst, get_freshState n h0, hrow]

/-- C3 (counterexample): the schema-name derivation is not injective on
arbitrary entityIds — the distinct entityIds "a-b" and "a_b" derive the
same schema name. -/
theorem sanitize_collision_counterexample :
    sanitizeSchemaName "a-b" = sanitizeSchemaName "a_b" ∧ ("a-b" : String) ≠ "a_b" := by
  constructor
  · rfl
  · decide

/-- C3 (amended): on entityIds made of alphanumerics and hyphens only —
the valid domain the spec admits — the schema-name derivation is
injective: two distinct valid entityIds never collide after
sanitization. -/
theorem sanitize_injective_on_valid (e1 e2 : String)
    (h1 : validEntityId e1 = true) (h2 : validEntityId e2 = true) (hne : e1 ≠ e2) :
    sanitizeSchemaName e1 ≠ sanitizeSchemaName e2 :=
  fun h => hne (sanitizeSchemaName_inj h1 h2 h)

/-- C3 witness: the amended injectivity at the concrete valid pair
"ab" and "a-b". -/
theorem sanitize_injective_on_valid_witness :
    validEntityId "ab" = true ∧ validEntityId "a-b" = true ∧ ("ab" : String) ≠ "a-b" ∧
      sanitizeSchemaName "ab" ≠ sanitizeSchemaName "a-b" :=
  ⟨by decide, by decide, by decide,
    sanitize_injective_on_valid "ab" "a-b" (by decide) (by decide) (by decide)⟩

/-- C6: deleting a nonexistent entityId returns false and performs no
storage mutation — the state (rows, schemas, trace) is exactly the one
before the call, so a `listTenants` snapshot is unchanged. -/
theorem delete_missing_false_noop (db : DB) (e : String)
    (h : getTenantByEntityId db e = none) :
    deleteTenant db e = (false, db) ∧
    listTenants (deleteTenant db e).2 = listTenants db := by
  have h1 : deleteTenant db e = (false, db) := by
    unfold deleteTenant
    rw [h]
  exact ⟨h1, by rw [h1]⟩

/-- C6 witness: deleting "ghost" from the empty state. -/
theorem delete_missing_false_noop_witness :
    getTenantByEntityId dbEmpty "ghost" = none ∧
    (deleteTenant dbEmpty "ghost" = (false, dbEmpty) ∧
      listTenants (deleteTenant dbEmpty "ghost").2 = listTenants dbEmpty) :=
  ⟨by decide, delete_missing_false_noop dbEmpty "ghost" (by decide)⟩

/-- C9: `listTenants` returns every stored tenant (a permutation of the
table, no pagination or truncation), ordered by creation time
descending — most recently created first. -/
theorem list_complete_sorted_desc (db : DB) :
    (listTenants db).Perm db.tenants ∧
    (listTenants db).Pairwise fun a b => b.createdAt ≤ a.createdAt := by
  constructor
  · exact List.mergeSort_perm _ _
  · have htrans : ∀ a b c : Tenant, decide (b.createdAt ≤ a.createdAt) = true →
        decide (c.createdAt ≤ b.createdAt) = true →
        decide (c.createdAt ≤ a.createdAt) = true := by
      intro a b c hab hbc
      exact decide_eq_true (le_trans (of_decide_eq_true hbc) (of_decide_eq_true hab))
    have htotal : ∀ a b : Tenant,
        (decide (b.createdAt ≤ a.createdAt) || decide (a.createdAt ≤ b.createdAt)) = true := by
      intro a b
      rcases Nat.le_total b.createdAt a.createdAt with h | h
      · simp [h]
      · simp [h]
    have hs := @List.sorted_mergeSort Tenant
      (fun a b => decide (b.createdAt ≤ a.createdAt)) htrans htotal db.tenants
    exact List.Pairwise.imp (fun hab => of_decide_eq_true hab) hs

/-- C5: deleting an existing tenant returns true, removes it from
`listTenants` and from the `entityId` lookup, drops its stored backing
schema, and issues the schema drop strictly before the row deletion. -/
theorem delete_existing_spec (db : DB) (e : String) (t : Tenant)
    (h : getTenantByEntityId db e = some t) :
    (deleteTenant db e).1 = true ∧
    (∀ u ∈ listTenants (deleteTenant db e).2, u.entityId ≠ e) ∧
    getTenantByEntityId (deleteTenant db e).2 e = none ∧
    t.schemaName ∉ (deleteTenant db e).2.schemas ∧
    (deleteTenant db e).2.trace =
      db.trace ++ [Event.dropSchema t.schemaName, Event.deleteRow e] := by
  have hd : deleteTenant db e =
      (true,
        { tenants := db.tenants.filter fun x => !(x.entityId == e),
          schemas := db.schemas.filter fun s => !(s == t.schemaName),
          now := db.now,
          trace := (db.trace ++ [Event.dropSchema t.schemaName]) ++ [Event.deleteRow e] }) := by
    unfold deleteTenant
    rw [h]
  rw [hd]
  refine ⟨rfl, ?_, ?_, ?_, ?_⟩
  · intro u hu
    have hmem : u ∈ db.tenants.filter fun x => !(x.entityId == e) :=
      ((List.mergeSort_perm _ _).mem_iff).mp hu
    have hpu := (List.mem_filter.mp hmem).2
    simpa using hpu
  · refine List.find?_eq_none.mpr fun x hx => ?_
    have hpx := (List.mem_filter.mp hx).2
    simpa using hpx
  · intro hmem
    have hps := (List.mem_filter.mp hmem).2
    simp at hps
  · simp

/-- C5 witness: deleting the existing tenant "acme-1" from `dbEx`. -/
theorem delete_existing_spec_witness :
    getTenantByEntityId dbEx "acme-1" = some tEx ∧
    ((deleteTenant dbEx "acme-1").1 = true ∧
      (∀ u ∈ listTenants (deleteTenant dbEx "acme-1").2, u.entityId ≠ "acme-1") ∧
      getTenantByEntityId (deleteTenant dbEx "acme-1").2 "acme-1" = none ∧
      tEx.schemaName ∉ (deleteTenant dbEx "acme-1").2.schemas ∧
      (deleteTenant dbEx "acme-1").2.trace =
        dbEx.trace ++ [Event.dropSchema tEx.schemaName, Event.deleteRow "acme-1"]) :=
  ⟨by decide, delete_existing_spec dbEx "acme-1" tEx (by decide)⟩

/-- C7: `updateTenantStatus` returns the refetched row — absent when no
tenant matches, otherwise the row with the new status and a refreshed
`updatedAt` — and mutates nothing when no tenant matches (schemas are
untouched, and the row table is unchanged unless a row matched). -/
theorem update_status_spec (db : DB) (e s : String)
    (hs : s = "active" ∨ s = "inactive") :
    (updateTenantStatus db e s).1 =
      (getTenantByEntityId db e).map (fun t => { t with status := s, updatedAt := db.now }) ∧
    (updateTenantStatus db e s).2.schemas = db.schemas ∧
    (updateTenantStatus db e s).2.tenants =
      (if (getTenantByEntityId db e).isSome then
        db.tenants.map fun t =>
          if t.entityId == e then { t with status := s, updatedAt := db.now } else t
      else db.tenants) := by
  have h1 : (updateTenantStatus db e s).1 =
      (db.tenants.find? fun t => t.entityId == e).map fun t =>
        if t.entityId == e then { t with status := s, updatedAt := db.now } else t := by
    show getTenantByEntityId _ e = _
    unfold getTenantByEntityId
    exact find?_map_update db.tenants e _ fun t => rfl
  refine ⟨?_, rfl, ?_⟩
  · rw [h1]
    show _ = (db.tenants.find? fun t => t.entityId == e).map
      (fun t => { t with status := s, updatedAt := db.now })
    cases hf : db.tenants.find? fun t => t.entityId == e with
    | none => rfl
    | some t0 =>
      have := List.find?_some hf
      simp only [Option.map_some']
      rw [if_pos this]
  · cases hf : db.tenants.find? fun t => t.entityId == e with
    | none =>
      have hnone : getTenantByEntityId db e = none := hf
      rw [hnone]
      simp only [Option.isSome_none, Bool.false_eq_true, if_false]
      exact map_update_id db.tenants fun x hx =>
        Bool.eq_false_iff.mpr (List.find?_eq_none.mp hf x hx)
    | some t0 =>
      have hsome : getTenantByEntityId db e = some t0 := hf
      rw [hsome]
      simp only [Option.isSome_some, if_true]
      rfl

/-- C7 witness: setting the existing tenant "acme-1" of `dbEx` to
"inactive". -/
theorem update_status_spec_witness :
    ("inactive" = "active" ∨ ("inactive" : String) = "inactive") ∧
    ((updateTenantStatus dbEx "acme-1" "inactive").1 =
      (getTenantByEntityId dbEx "acme-1").map
        (fun t => { t with status := "inactive", updatedAt := dbEx.now }) ∧
    (updateTenantStatus dbEx "acme-1" "inactive").2.schemas = dbEx.schemas ∧
    (updateTenantStatus dbEx "acme-1" "inactive").2.tenants =
      (if (getTenantByEntityId dbEx "acme-1").isSome then
        dbEx.tenants.map fun t =>
          if t.entityId == "acme-1" then
            { t with status := "inactive", updatedAt := dbEx.now }
          else t
      else dbEx.tenants)) :=
  ⟨Or.inr rfl, update_status_spec dbEx "acme-1" "inactive" (Or.inr rfl)⟩

/-- C4: after setting an existing tenant to "inactive", a request that
carries its entityId (header or cookie) is bound exactly like a request
with no tenant identifier — no `req.tenant`, no schema switch — while
the `entityId` lookup still returns the row with status "inactive". -/
theorem inactive_tenant_not_bound (db : DB) (e : String) (t : Tenant) (r : Request)
    (h : getTenantByEntityId db e = some t)
    (hr : effectiveTenantId r = some e) :
    getTenantByEntityId (updateTenantStatus db e "inactive").2 e =
      some { t with status := "inactive", updatedAt := db.now } ∧
    tenantMiddleware (updateTenantStatus db e "inactive").2 r =
      { tenant := none, searchPath := none } ∧
    tenantMiddleware (updateTenantStatus db e "inactive").2
        { headerTenantId := none, cookieTenantId := none } =
      { tenant := none, searchPath := none } := by
  have h' : db.tenants.find? (fun x => x.entityId == e) = some t := h
  have hte : (t.entityId == e) = true := by
    have hp := List.find?_some h'
    simpa using hp
  have h1 : getTenantByEntityId (updateTenantStatus db e "inactive").2 e =
      some { t with status := "inactive", updatedAt := db.now } := by
    show getTenantByEntityId
      { db with
        tenants := db.tenants.map fun x =>
          if x.entityId == e then { x with status := "inactive", updatedAt := db.now } else x,
        now := db.now + 1,
        trace := db.trace ++ [Event.updateStatusRow e "inactive"] } e = _
    unfold getTenantByEntityId at h ⊢
    simp only
    rw [find?_map_update db.tenants e
      (fun x => { x with status := "inactive", updatedAt := db.now }) fun x => rfl, h]
    simp only [Option.map_some']
    rw [if_pos hte]
  have h2 : resolveActiveTenant (updateTenantStatus db e "inactive").2 e = none := by
    unfold resolveActiveTenant
    refine List.find?_eq_none.mpr fun x hx => ?_
    have hx2 : x ∈ db.tenants.map fun y =>
        if y.entityId == e then { y with status := "inactive", updatedAt := db.now } else y := hx
    obtain ⟨y, hy, hxy⟩ := List.mem_map.mp hx2
    by_cases hye : (y.entityId == e) = true
    · rw [if_pos hye] at hxy
      rw [← hxy]
      simp
    · rw [if_neg hye] at hxy
      rw [← hxy]
      simp only [Bool.and_eq_true]
      exact fun hc => hye hc.1
  refine ⟨h1, ?_, rfl⟩
  unfold tenantMiddleware
  rw [hr]
  simp only [h2]

/-- C4 witness: "acme-1" of `dbEx` set inactive, request carrying the
entityId in the x-tenant-id header. -/
theorem inactive_tenant_not_bound_witness :
    getTenantByEntityId dbEx "acme-1" = some tEx ∧
    effectiveTenantId { headerTenantId := some "acme-1", cookieTenantId := none } =
      some "acme-1" ∧
    (getTenantByEntityId (updateTenantStatus dbEx "acme-1" "inactive").2 "acme-1" =
      some { tEx with status := "inactive", updatedAt := dbEx.now } ∧
    tenantMiddleware (updateTenantStatus dbEx "acme-1" "inactive").2
        { headerTenantId := some "acme-1", cookieTenantId := none } =
      { tenant := none, searchPath := none } ∧
    tenantMiddleware (updateTenantStatus dbEx "acme-1" "inactive").2
        { headerTenantId := none, cookieTenantId := none } =
      { tenant := none, searchPath := none }) :=
  ⟨by decide, by decide,
    inactive_tenant_not_bound dbEx "acme-1" tEx
      { headerTenantId := some "acme-1", cookieTenantId := none } (by decide) (by decide)⟩

/-- C10: PATCH on an existing tenant leaves omitted fields — and fields
supplied as the empty string, which the handler's truthiness checks
treat as absent — unchanged; `id`, `entityId`, `schemaName` and
`createdAt` are never modified; a body supplying neither `entityName`
nor `status` issues no update at all and returns the stored row
unchanged; and the handler can never push an empty `entityName`. -/
theorem patch_frame_spec (db : DB) (e : String) (t : Tenant) (bn bs : Option String)
    (h : getTenantByEntityId db e = some t) :
    (patchTenant db e bn bs).2.tenants.map (fun u => (u.id, u.entityId, u.schemaName, u.createdAt))
      = db.tenants.map (fun u => (u.id, u.entityId, u.schemaName, u.createdAt)) ∧
    (if truthy bn = none then
      (patchTenant db e bn bs).2.tenants.map Tenant.entityName =
        db.tenants.map Tenant.entityName
     else True) ∧
    (if truthy bs = none then
      (patchTenant db e bn bs).2.tenants.map Tenant.status = db.tenants.map Tenant.status
     else True) ∧
    (if truthy bn = none ∧ truthy bs = none then
      patchTenant db e bn bs = (some t, db)
     else True) ∧
    truthy bn ≠ some "" := by
  have h5 : truthy bn ≠ some "" := by
    intro hc
    cases bn with
    | none => exact Option.noConfusion hc
    | some s =>
      by_cases hs0 : (s == "") = true
      · rw [show truthy (some s) = none from by simp [truthy, hs0]] at hc
        exact Option.noConfusion hc
      · rw [show truthy (some s) = some s from by simp [truthy, hs0]] at hc
        have hs1 : s = "" := by injection hc
        exact hs0 (beq_iff_eq.mpr hs1)
  cases hno : (truthy bn).isNone && (truthy bs).isNone with
  | true =>
    have hb : (truthy bn).isNone = true ∧ (truthy bs).isNone = true := by
      simpa [Bool.and_eq_true] using hno
    obtain ⟨hb1, hb2⟩ := hb
    have hbn : truthy bn = none := Option.isNone_iff_eq_none.mp hb1
    have hbs : truthy bs = none := Option.isNone_iff_eq_none.mp hb2
    have hA : patchTenant db e bn bs = (some t, db) := by
      unfold patchTenant
      rw [h]
      simp only [hno, if_true]
    rw [hA]
    refine ⟨rfl, ?_, ?_, ?_, h5⟩
    · rw [if_pos hbn]
    · rw [if_pos hbs]
    · rw [if_pos ⟨hbn, hbs⟩]
  | false =>
    have hcond : ¬(truthy bn = none ∧ truthy bs = none) := by
      rintro ⟨hbn, hbs⟩
      rw [hbn, hbs] at hno
      simp at hno
    have hB : (patchTenant db e bn bs).2.tenants = db.tenants.map fun u =>
        if u.entityId == e then
          { u with entityName := (truthy bn).getD u.entityName,
                   status := (truthy bs).getD u.status, updatedAt := db.now }
        else u := by
      unfold patchTenant
      rw [h]
      simp only [hno, Bool.false_eq_true, if_false]
    refine ⟨?_, ?_, ?_, by rw [if_neg hcond]; trivial, h5⟩
    · rw [hB, List.map_map]
      refine List.map_congr_left fun a _ => ?_
      by_cases ha : (a.entityId == e) = true <;> simp [Function.comp, ha]
    · by_cases hbn : truthy bn = none
      · rw [if_pos hbn, hB, List.map_map]
        refine List.map_congr_left fun a _ => ?_
        by_cases ha : (a.entityId == e) = true <;> simp [Function.comp, ha, hbn]
      · rw [if_neg hbn]
        trivial
    · by_cases hbs : truthy bs = none
      · rw [if_pos hbs, hB, List.map_map]
        refine List.map_congr_left fun a _ => ?_
        by_cases ha : (a.entityId == e) = true <;> simp [Function.comp, ha, hbs]
      · rw [if_neg hbs]
        trivial

/-- C10 witness: PATCH of existing tenant "acme-1" with no entityName
in the body and an empty-string status. -/
theorem patch_frame_spec_witness :
    getTenantByEntityId dbEx "acme-1" = some tEx ∧
    ((patchTenant dbEx "acme-1" none (some "")).2.tenants.map
        (fun u => (u.id, u.entityId, u.schemaName, u.createdAt))
      = dbEx.tenants.map (fun u => (u.id, u.entityId, u.schemaName, u.createdAt)) ∧
    (if truthy none = none then
      (patchTenant dbEx "acme-1" none (some "")).2.tenants.map Tenant.entityName =
        dbEx.tenants.map Tenant.entityName
     else True) ∧
    (if truthy (some "") = none then
      (patchTenant dbEx "acme-1" none (some "")).2.tenants.map Tenant.status =
        dbEx.tenants.map Tenant.status
     else True) ∧
    (if truthy none = none ∧ truthy (some "") = none then
      patchTenant dbEx "acme-1" none (some "") = (some tEx, dbEx)
     else True) ∧
    truthy none ≠ some "") :=
  ⟨by decide, patch_frame_spec dbEx "acme-1" tEx none (some "") (by decide)⟩

/-- C1: on a well-formed state, creating a valid entityId (non-empty,
alphanumerics and hyphens only) and then looking it up by entityId
returns exactly the tenant the create produced, whose `schemaName` is
`tenant_entity_` + entityId with every hyphen replaced by an underscore
and whose `id` is `tenant_` + entityId. -/
theorem create_then_get_derivation (db : DB) (e n : String)
    (hwf : WF db = true) (hv : validEntityId e = true) :
    getTenantByEntityId (createTenantState db e n) e = createTenantResult db e n ∧
    (createTenantResult db e n).map Tenant.schemaName = some (sanitizeSchemaName e) ∧
    (createTenantResult db e n).map Tenant.id = some (tenantRecordId e) := by
  cases h0 : getTenantByEntityId db e with
  | some t =>
    have hc := create_existing_eval n h0
    have h0f : db.tenants.find? (fun x => x.entityId == e) = some t := h0
    have ht : t ∈ db.tenants := List.mem_of_find?_eq_some h0f
    have hte : t.entityId = e := by
      have hp := List.find?_some h0f
      exact eq_of_beq (by simpa using hp)
    obtain ⟨hid, hschema, _⟩ := WF_spec hwf ht
    have hres : createTenantResult db e n = some t := by simp [createTenantResult, hc]
    have hst : createTenantState db e n = db := by simp [createTenantState, hc]
    refine ⟨by rw [hst, hres, h0], ?_, ?_⟩
    · rw [hres, Option.map_some', hschema, hte]
    · rw [hres, Option.map_some', hid, hte]
  | none =>
    have hany : (db.tenants.any fun x =>
        x.id == tenantRecordId e || x.schemaName == sanitizeSchemaName e) = false := by
      refine Bool.eq_false_iff.mpr fun hcontra => ?_
      obtain ⟨x, hx, hor⟩ := List.any_eq_true.mp hcontra
      obtain ⟨hid, hschema, hval⟩ := WF_spec hwf hx
      have hne : ¬ (x.entityId == e) = true :=
        List.find?_eq_none.mp h0 x hx
      rcases (Bool.or_eq_true _ _).mp hor with h1 | h1
      · have hrid : tenantRecordId x.entityId = tenantRecordId e := by
          rw [← hid]
          exact eq_of_beq h1
        exact hne (beq_iff_eq.mpr (tenantRecordId_inj hrid))
      · have hsn : sanitizeSchemaName x.entityId = sanitizeSchemaName e := by
          rw [← hschema]
          exact eq_of_beq h1
        exact hne (beq_iff_eq.mpr (sanitizeSchemaName_inj hval hv hsn))
    have hc := create_fresh_eval n h0 hany
    have hres : createTenantResult db e n = some (freshRow db e n) := by
      simp [createTenantResult, hc]
    have hst : createTenantState db e n = freshState db e n := by
      simp [createTenantState, hc]
    refine ⟨?_, ?_, ?_⟩
    · rw [hst, hres]
      exact get_freshState n h0
    · rw [hres]
      rfl
    · rw [hres]
      rfl

/-- C1 witness: creating the valid entityId "acme-1" on the empty
well-formed state. -/
theorem create_then_get_derivation_witness :
    WF dbEmpty = true ∧ validEntityId "acme-1" = true ∧
    (getTenantByEntityId (createTenantState dbEmpty "acme-1" "Acme Co") "acme-1" =
        createTenantResult dbEmpty "acme-1" "Acme Co" ∧
      (createTenantResult dbEmpty "acme-1" "Acme Co").map Tenant.schemaName =
        some (sanitizeSchemaName "acme-1") ∧
      (createTenantResult dbEmpty "acme-1" "Acme Co").map Tenant.id =
        some (tenantRecordId "acme-1")) :=
  ⟨by decide, by decide,
    create_then_get_derivation dbEmpty "acme-1" "Acme Co" (by decide) (by decide)⟩

/-- C2: create is idempotent and never updates — once a create for an
entityId has returned a tenant, a second create with any other name
returns that same tenant with all fields unchanged and leaves the
storage state exactly as it was (no mutating statement issued). -/
theorem create_idempotent_no_update (db : DB) (e n1 n2 : String) (t : Tenant)
    (h : createTenantResult db e n1 = some t) :
    createTenant (createTenantState db e n1) e n2 =
      Except.ok (t, createTenantState db e n1) :=
  create_existing_eval n2 (create_ok_get h)

/-- C2 witness: creating "acme-1" twice from the empty state with two
different names. -/
theorem create_idempotent_no_update_witness :
    createTenantResult dbEmpty "acme-1" "Acme Co" = some tEx ∧
    createTenant (createTenantState dbEmpty "acme-1" "Acme Co") "acme-1" "Other Name" =
      Except.ok (tEx, createTenantState dbEmpty "acme-1" "Acme Co") :=
  ⟨by decide, create_idempotent_no_update dbEmpty "acme-1" "Acme Co" "Other Name" tEx (by decide)⟩

/-- C8: round-trip between the two lookups — on a well-formed state,
the tenant returned by create is found again by `getTenantBySchemaName`
at its own `schemaName`, equal in all fields (so in particular in all
fields except possibly `updatedAt`). -/
theorem create_roundtrip_schema_lookup (db : DB) (e n : String) (t : Tenant)
    (hwf : WF db = true) (h : createTenantResult db e n = some t) :
    getTenantBySchemaName (createTenantState db e n) t.schemaName = some t := by
  cases h0 : getTenantByEntityId db e with
  | some u =>
    have hc := create_existing_eval n h0
    have hu : u = t := by simpa [createTenantResult, hc] using h
    subst hu
    have hst : createTenantState db e n = db := by simp [createTenantState, hc]
    rw [hst]
    have h0f : db.tenants.find? (fun x => x.entityId == e) = some u := h0
    have htm : u ∈ db.tenants := List.mem_of_find?_eq_some h0f
    have hue : u.entityId = e := by
      have hp := List.find?_some h0f
      exact eq_of_beq (by simpa using hp)
    obtain ⟨_, hschema, hval⟩ := WF_spec hwf htm
    have hpt : ∀ x ∈ db.tenants, (x.schemaName == u.schemaName) = (x.entityId == e) := by
      intro x hx
      obtain ⟨_, hxs, hxv⟩ := WF_spec hwf hx
      by_cases hxe : x.entityId = e
      · rw [beq_iff_eq.mpr hxe,
          beq_iff_eq.mpr (by rw [hxs, hxe, hschema, hue])]
      · rw [beq_eq_false_iff_ne.mpr hxe]
        refine Bool.eq_false_iff.mpr fun hcontra => hxe ?_
        have hss := eq_of_beq hcontra
        rw [hxs, hschema] at hss
        rw [sanitizeSchemaName_inj hxv hval hss, hue]
    show db.tenants.find? (fun x => x.schemaName == u.schemaName) = some u
    rw [find_congr db.tenants hpt]
    exact h0f
  | none =>
    cases hany : db.tenants.any fun x =>
        x.id == tenantRecordId e || x.schemaName == sanitizeSchemaName e with
    | true =>
      have hc := create_blocked_eval n h0 hany
      simp [createTenantResult, hc] at h
    | false =>
      have hc := create_fresh_eval n h0 hany
      have hrow : freshRow db e n = t := by simpa [createTenantResult, hc] using h
      have hst : createTenantState db e n = freshState db e n := by
        simp [createTenantState, hc]
      rw [hst, ← hrow]
      show ((freshState db e n).tenants.find?
        fun x => x.schemaName == (freshRow db e n).schemaName) = some (freshRow db e n)
      have hall := List.any_eq_false.mp hany
      have hnone : db.tenants.find?
          (fun x => x.schemaName == (freshRow db e n).schemaName) = none := by
        refine List.find?_eq_none.mpr fun x hx hcontra => ?_
        exact hall x hx ((Bool.or_eq_true _ _).mpr (Or.inr hcontra))
      show ((db.tenants ++ [freshRow db e n]).find?
        fun x => x.schemaName == (freshRow db e n).schemaName) = some (freshRow db e n)
      rw [List.find?_append, hnone]
      simp

/-- C8 witness: the round-trip at the concrete tenant created for
"acme-1" on the empty state. -/
theorem create_roundtrip_schema_lookup_witness :
    WF dbEmpty = true ∧ createTenantResult dbEmpty "acme-1" "Acme Co" = some tEx ∧
    getTenantBySchemaName (createTenantState dbEmpty "acme-1" "Acme Co") tEx.schemaName =
      some tEx :=
  ⟨by decide, by decide,
    create_roundtrip_schema_lookup dbEmpty "acme-1" "Acme Co" tEx (by decide) (by decide)⟩

end Beezy
